import Mathlib

/-!
Verification of the traceroute-map backend core: shallow embedding of the
hop parsers (`tracerouteService.js`, current revision), the enrichment
pipeline, the distance/timing aggregator and the submarine-cable analysis
(`cableService.js`), together with proofs of the specified properties.

Modelling conventions:
* JavaScript numbers are modelled as exact rationals (`ℚ`); `Math.round`
  is `round : ℚ → ℤ` (both round half toward positive infinity).
* `null`/`undefined` become `Option`; JavaScript truthiness tests on a
  number-or-null value (`!hop.lat`) test `none` or `some 0`.
* The regular expressions of the source are emulated by hand-rolled
  matchers.  Every quantifier in those patterns is followed by a literal
  outside its character class, so greedy maximal-munch scanning agrees
  with the backtracking semantics of the JavaScript engine.
* External collaborators (geolocation, ASN lookup, the cable-geometry
  dataset and the geometric matcher, the haversine distance — which is
  transcendental and has no exact executable form) are passed in as
  function parameters; every claim below is proved for all of them.
-/

namespace TraceMap

/-! ### String helpers with JavaScript semantics -/

/-- Numeric value of a digit string, as produced by `parseInt` on an
all-digit capture. -/
def digitsVal (cs : List Char) : Nat :=
  cs.foldl (fun a c => a * 10 + (c.toNat - '0'.toNat)) 0

def isDigitC (c : Char) : Bool := c.isDigit

def isWsC (c : Char) : Bool := c.isWhitespace

/-- Does the list start with the given pattern? -/
def startsWithList : List Char → List Char → Bool
  | _, [] => true
  | [], _ :: _ => false
  | c :: t, p :: ps => c == p && startsWithList t ps

/-- Substring containment on character lists (JavaScript `includes`). -/
def containsSubList (s pat : List Char) : Bool :=
  match s with
  | [] => pat.isEmpty
  | _ :: t => startsWithList s pat || containsSubList t pat

/-- JavaScript `String.prototype.includes`. -/
def containsSub (s pat : String) : Bool :=
  containsSubList s.toList pat.toList

/-- `parseFloat` restricted to captures of the class `[\d.]+`: leading
digits, then an optional dot with following digits (a second dot stops the
parse).  `none` models `NaN`; the value `i.f` is the exact rational
`(i * 10^k + f) / 10^k`. -/
def parseFloatDots (cs : List Char) : Option ℚ :=
  let ipart := cs.takeWhile isDigitC
  let rest := cs.drop ipart.length
  let fpart := match rest with
    | '.' :: t => t.takeWhile isDigitC
    | _ => []
  if ipart.isEmpty && fpart.isEmpty then none
  else some (Rat.divInt
    ((digitsVal ipart * 10 ^ fpart.length + digitsVal fpart : Nat) : ℤ)
    ((10 ^ fpart.length : Nat) : ℤ))

/-- Match `\d{1,3}\.\d{1,3}\.\d{1,3}\.\d{1,3}` anchored at the head of the
list.  Each of the first three octets must be a full digit run of length
1–3 terminated by a dot (the greedy engine's backtracking forces exactly
this); the last octet greedily takes up to three digits.  Returns the
matched text and the remainder. -/
def ipv4At (cs : List Char) : Option (List Char × List Char) :=
  let r1 := cs.takeWhile isDigitC
  if 1 ≤ r1.length ∧ r1.length ≤ 3 then
    match cs.drop r1.length with
    | '.' :: t1 =>
      let r2 := t1.takeWhile isDigitC
      if 1 ≤ r2.length ∧ r2.length ≤ 3 then
        match t1.drop r2.length with
        | '.' :: t2 =>
          let r3 := t2.takeWhile isDigitC
          if 1 ≤ r3.length ∧ r3.length ≤ 3 then
            match t2.drop r3.length with
            | '.' :: t3 =>
              let r4 := t3.takeWhile isDigitC
              if 1 ≤ r4.length then
                let o4 := r4.take 3
                some (r1 ++ '.' :: r2 ++ '.' :: r3 ++ '.' :: o4, t3.drop o4.length)
              else none
            | _ => none
          else none
        | _ => none
      else none
    | _ => none
  else none

/-- Leftmost match of the dotted-quad pattern anywhere in the list
(JavaScript `line.match(/(\d{1,3}\.\d{1,3}\.\d{1,3}\.\d{1,3})/)`). -/
def firstIPv4 : List Char → Option String
  | [] => none
  | c :: t =>
    match ipv4At (c :: t) with
    | some (m, _) => some (String.mk m)
    | none => firstIPv4 t

/-- `/^172\.(1[6-9]|2[0-9]|3[0-1])\./` -/
def is172Private (ip : String) : Bool :=
  match ip.toList with
  | '1' :: '7' :: '2' :: '.' :: a :: b :: '.' :: _ =>
    (a == '1' && (b == '6' || b == '7' || b == '8' || b == '9')) ||
    (a == '2' && b.isDigit) ||
    (a == '3' && (b == '0' || b == '1'))
  | _ => false

/-- `isPrivateIP` of `tracerouteService.js` (current revision): the
private/loopback/link-local ranges, with a falsy argument private. -/
def isPrivateIP (ip : String) : Bool :=
  if ip.toList.isEmpty then true
  else
    startsWithList ip.toList "10.".toList || is172Private ip ||
    startsWithList ip.toList "192.168.".toList ||
    startsWithList ip.toList "127.".toList ||
    startsWithList ip.toList "169.254.".toList ||
    ip.toList == "::1".toList ||
    startsWithList ip.toList "fc00:".toList ||
    startsWithList ip.toList "fe80:".toList

/-- JavaScript `output.split('\n')` (empty segments kept). -/
def splitOnNl (cs : List Char) : List (List Char) :=
  match cs with
  | [] => [[]]
  | c :: t =>
    if c = '\n' then [] :: splitOnNl t
    else
      match splitOnNl t with
      | [] => [[c]]
      | l :: ls => (c :: l) :: ls

/-- JavaScript `String.prototype.trim`: strip whitespace at both ends. -/
def trimChar (cs : List Char) : List Char :=
  ((cs.dropWhile isWsC).reverse.dropWhile isWsC).reverse

/-- The literal tail `ms` of the duration patterns: succeeds exactly when
the list starts with `m`, `s` and returns what follows. -/
def msTail (cs : List Char) : Option (List Char) :=
  match cs with
  | 'm' :: 's' :: t => some t
  | _ => none

/-- Match `(?:<)?(\d+)\s*ms` anchored after the optional `<` has been
handled: a digit run, optional whitespace, then the literal `ms`.  Returns
the capture's `parseInt` value and the remainder after the match. -/
def msMatchCore (cs1 : List Char) : Option (Nat × List Char) :=
  if (cs1.takeWhile isDigitC).isEmpty then none
  else
    match msTail ((cs1.drop (cs1.takeWhile isDigitC).length).dropWhile isWsC) with
    | some t => some (digitsVal (cs1.takeWhile isDigitC), t)
    | none => none

/-- Full anchored attempt for `(?:<)?(\d+)\s*ms`: the optional-`<` group is
greedy, and when a leading `<` is not followed by a full match the engine
retries at the next position, which the scanner `winRTTs` reproduces by
advancing one character. -/
def msMatchAt (cs : List Char) : Option (Nat × List Char) :=
  msMatchCore (if cs.head? = some '<' then cs.tail else cs)

/-- All matches of `/(?:<)?(\d+)\s*ms/g` left to right, each capture
taken through `parseInt(match[1]) || 1` (so a `0` capture yields `1`, as
does the `<1` form whose `<` sits outside the capture).  The scanner
consumes at least one character per step, so a fuel of the input length is
never exhausted; fuel recursion keeps the definition kernel-evaluable. -/
def winRTTsAux : Nat → List Char → List Nat
  | 0, _ => []
  | _, [] => []
  | fuel + 1, c :: t =>
    match msMatchAt (c :: t) with
    | some (v, rest) => (if v = 0 then 1 else v) :: winRTTsAux fuel rest
    | none => winRTTsAux fuel t

def winRTTs (cs : List Char) : List Nat := winRTTsAux cs.length cs

def isDotDigitC (c : Char) : Bool := c.isDigit || c == '.'

/-- Match `([\d.]+)\s*ms` anchored at the head; the capture goes through
`parseFloat` (`none` models `NaN`). -/
def floatMsAt (cs : List Char) : Option (Option ℚ × List Char) :=
  if (cs.takeWhile isDotDigitC).isEmpty then none
  else
    match msTail ((cs.drop (cs.takeWhile isDotDigitC).length).dropWhile isWsC) with
    | some t => some (parseFloatDots (cs.takeWhile isDotDigitC), t)
    | none => none

/-- All matches of `/([\d.]+)\s*ms/g` left to right; captures whose
`parseFloat` is `NaN` are dropped, mirroring the `isNaN` guard at the
single use site.  Fuel as in `winRTTsAux`. -/
def floatMsRTTsAux : Nat → List Char → List ℚ
  | 0, _ => []
  | _, [] => []
  | fuel + 1, c :: t =>
    match floatMsAt (c :: t) with
    | some (q, rest) => q.toList ++ floatMsRTTsAux fuel rest
    | none => floatMsRTTsAux fuel t

def floatMsRTTs (cs : List Char) : List ℚ := floatMsRTTsAux cs.length cs

/-! ### Parsed hop records and the insertion-ordered hop map -/

/-- A hop as produced by the output parsers (no enrichment fields). -/
structure HopRec where
  hop : Nat
  ip : Option String
  rtt : Option ℚ
  loss : ℚ
  timeout : Bool
  isPrivate : Bool
deriving DecidableEq

/-- The per-hop accumulator of `parseWindowsTracert` (one entry per hop
number in the `hopMap`). -/
structure WinHopData where
  ip : Option String
  rtts : List ℚ
  timeout : Bool
  isPrivate : Bool
  hopLines : Nat
deriving DecidableEq

def freshWin : WinHopData :=
  { ip := none, rtts := [], timeout := false, isPrivate := false, hopLines := 0 }

/-- JavaScript `Map` as an insertion-ordered association list. -/
def mapHas (m : List (Nat × α)) (k : Nat) : Bool :=
  m.any fun e => e.1 == k

def mapUpdate (m : List (Nat × α)) (k : Nat) (f : α → α) : List (Nat × α) :=
  m.map fun e => if e.1 == k then (e.1, f e.2) else e

def keysOf (m : List (Nat × α)) : List Nat := m.map Prod.fst

theorem keysOf_mapUpdate (m : List (Nat × α)) (k : Nat) (f : α → α) :
    keysOf (mapUpdate m k f) = keysOf m := by
  induction m with
  | nil => rfl
  | cons e t ih =>
    simp only [mapUpdate, keysOf, List.map_cons] at *
    rw [ih]
    congr 1
    split
    · rfl
    · rfl

theorem mapHas_iff (m : List (Nat × α)) (k : Nat) :
    mapHas m k = true ↔ k ∈ keysOf m := by
  unfold mapHas keysOf
  rw [List.any_eq_true]
  constructor
  · rintro ⟨e, he, hk⟩
    exact List.mem_map.2 ⟨e, he, beq_iff_eq.1 hk⟩
  · intro hk
    rcases List.mem_map.1 hk with ⟨e, he, hk⟩
    exact ⟨e, he, beq_iff_eq.2 hk⟩

/-- State of the Windows parser's line loop. -/
structure WinState where
  hopMap : List (Nat × WinHopData)
  currentHop : Option Nat
  consecutiveTimeouts : Nat

/-- `parseTracertRTTLine`: append every RTT measurement of the line to the
hop's sample list. -/
def parseTracertRTTLine (cs : List Char) (d : WinHopData) : WinHopData :=
  { d with rtts := d.rtts ++ (winRTTs cs).map (fun v => (v : ℚ)) }

/-- `/^(\d+)\s+/` on the trimmed line: a leading digit run followed by at
least one whitespace character. -/
def leadingHopNumWin (cs : List Char) : Option Nat :=
  let ds := cs.takeWhile isDigitC
  if ds.isEmpty then none
  else
    match cs.drop ds.length with
    | c :: _ => if c.isWhitespace then some (digitsVal ds) else none
    | [] => none

/-- `if (hopMap.has(hopNum)) ... else hopMap.set(hopNum, fresh)`: a `Map`
insert appends at the end, preserving insertion order. -/
def winEnsure (m : List (Nat × WinHopData)) (k : Nat) : List (Nat × WinHopData) :=
  if mapHas m k then m else m ++ [(k, freshWin)]

/-- `currentHop.hopLines++`. -/
def winBump (m : List (Nat × WinHopData)) (k : Nat) : List (Nat × WinHopData) :=
  mapUpdate m k (fun d => { d with hopLines := d.hopLines + 1 })

/-- `currentHop.timeout = true`. -/
def winSetTimeout (m : List (Nat × WinHopData)) (k : Nat) : List (Nat × WinHopData) :=
  mapUpdate m k (fun d => { d with timeout := true })

/-- The address-extraction block: on a dotted-quad match set `ip`,
`isPrivate` and clear `timeout`. -/
def winSetIp (m : List (Nat × WinHopData)) (k : Nat) (o : Option String) :
    List (Nat × WinHopData) :=
  match o with
  | some ip => mapUpdate m k (fun d =>
      { d with ip := some ip, isPrivate := isPrivateIP ip, timeout := false })
  | none => m

/-- The body of one `parseWindowsTracert` line on the already-trimmed
text (current revision; the declared `MAX_CONSECUTIVE_TIMEOUTS` constant
is never consulted there, so the counter is dead state that is still
tracked faithfully). -/
def winLineCore (st : WinState) (tl : List Char) : WinState :=
  if containsSubList tl "Tracing route".toList ||
      containsSubList tl "over a maximum".toList ||
      containsSubList tl "Trace complete".toList || tl.isEmpty then st
  else
    match leadingHopNumWin tl with
    | none =>
      match st.currentHop with
      | some k =>
        if containsSubList tl "ms".toList && !containsSubList tl "*".toList then
          { st with hopMap := mapUpdate st.hopMap k (parseTracertRTTLine tl) }
        else st
      | none => st
    | some hopNum =>
      if containsSubList tl "*".toList ||
          containsSubList tl "Request timed out".toList then
        { hopMap := winSetTimeout (winBump (winEnsure st.hopMap hopNum) hopNum) hopNum,
          currentHop := some hopNum,
          consecutiveTimeouts := st.consecutiveTimeouts + 1 }
      else
        { hopMap := mapUpdate
            (winSetIp (winBump (winEnsure st.hopMap hopNum) hopNum) hopNum
              (firstIPv4 tl)) hopNum (parseTracertRTTLine tl),
          currentHop := some hopNum,
          consecutiveTimeouts := 0 }

/-- `const trimmedLine = line.trim()` followed by the line body. -/
def winLine (st : WinState) (line : List Char) : WinState :=
  winLineCore st (trimChar line)

/-- Final per-hop assembly of `parseWindowsTracert`: average the samples,
derive the loss from the expected three probes, clamp with
`Math.min(loss, 100)`. -/
def assembleWin (k : Nat) (d : WinHopData) : HopRec :=
  if d.timeout || d.ip.isNone then
    { hop := k, ip := d.ip, rtt := none, loss := min 100 100,
      timeout := d.timeout || d.ip.isNone, isPrivate := d.isPrivate }
  else if d.rtts.length > 0 then
    { hop := k, ip := d.ip, rtt := some (d.rtts.sum / d.rtts.length),
      loss := min (((3 - (d.rtts.length : ℚ)) / 3) * 100) 100,
      timeout := d.timeout || d.ip.isNone, isPrivate := d.isPrivate }
  else
    { hop := k, ip := d.ip, rtt := none, loss := min 0 100,
      timeout := d.timeout || d.ip.isNone, isPrivate := d.isPrivate }

instance : DecidableRel (fun a b : HopRec => a.hop ≤ b.hop) :=
  fun a b => Nat.decLe a.hop b.hop

/-- `hops.sort((a, b) => a.hop - b.hop)`. -/
def sortHops (l : List HopRec) : List HopRec :=
  l.insertionSort (fun a b => a.hop ≤ b.hop)

/-- `parseWindowsTracert` (current revision). -/
def parseWindowsTracert (output : String) : List HopRec :=
  sortHops ((((splitOnNl output.toList).foldl winLine ⟨[], none, 0⟩).hopMap).map
    fun e => assembleWin e.1 e.2)

/-! ### Standard traceroute parser -/

/-- The per-hop accumulator of `parseTracerouteOutput`. -/
structure TrHopData where
  ip : Option String
  rtts : List ℚ
  timeout : Bool
  isPrivate : Bool
deriving DecidableEq

def freshTr : TrHopData :=
  { ip := none, rtts := [], timeout := false, isPrivate := false }

/-- `/^\s*(\d+)\s+(.*)/`: optional leading whitespace, a digit run, at
least one whitespace character, then the rest of the line. -/
def hopNumRest (cs : List Char) : Option (Nat × List Char) :=
  let cs1 := cs.dropWhile isWsC
  let ds := cs1.takeWhile isDigitC
  if ds.isEmpty then none
  else
    let r1 := cs1.drop ds.length
    let ws := r1.takeWhile isWsC
    if ws.isEmpty then none
    else some (digitsVal ds, r1.drop ws.length)

/-- State of the traceroute parser's line loop. -/
structure TrState where
  hopMap : List (Nat × TrHopData)
  consecutiveTimeouts : Nat

/-- `if (!hopMap.has(hopNum)) hopMap.set(hopNum, fresh)`. -/
def trEnsure (m : List (Nat × TrHopData)) (k : Nat) : List (Nat × TrHopData) :=
  if mapHas m k then m else m ++ [(k, freshTr)]

/-- `hopData.timeout = true`. -/
def trSetTimeout (m : List (Nat × TrHopData)) (k : Nat) : List (Nat × TrHopData) :=
  mapUpdate m k (fun d => { d with timeout := true })

/-- The non-timeout update of one hop line: clear `timeout`, record a
dotted-quad address when one matches, append the line's RTT values. -/
def trDataUpd (m : List (Nat × TrHopData)) (k : Nat) (r : List Char) :
    List (Nat × TrHopData) :=
  let m1 := mapUpdate m k (fun d => { d with timeout := false })
  let m2 := match firstIPv4 r with
    | some ip => mapUpdate m1 k (fun d =>
        { d with ip := some ip, isPrivate := isPrivateIP ip })
    | none => m1
  mapUpdate m2 k (fun d => { d with rtts := d.rtts ++ floatMsRTTs r })

/-- Line loop of `parseTracerouteOutput` (current revision), including the
break after `MAX_CONSECUTIVE_TIMEOUTS = 5` consecutive timeout lines. -/
def trLoop (st : TrState) : List (List Char) → TrState
  | [] => st
  | line :: rest =>
    if startsWithList (trimChar line) "traceroute".toList ||
        (trimChar line).isEmpty then trLoop st rest
    else
      match hopNumRest (trimChar line) with
      | none => trLoop st rest
      | some (hopNum, r) =>
        if r.contains '*' then
          if st.consecutiveTimeouts + 1 ≥ 5 then
            ⟨trSetTimeout (trEnsure st.hopMap hopNum) hopNum,
             st.consecutiveTimeouts + 1⟩
          else
            trLoop ⟨trSetTimeout (trEnsure st.hopMap hopNum) hopNum,
              st.consecutiveTimeouts + 1⟩ rest
        else trLoop ⟨trDataUpd (trEnsure st.hopMap hopNum) hopNum r, 0⟩ rest

/-- Final per-hop assembly of `parseTracerouteOutput`; note that unlike the
Windows parser, the emitted `timeout` flag is the accumulator's flag alone
(not or-ed with a missing address). -/
def assembleTr (k : Nat) (d : TrHopData) : HopRec :=
  if d.timeout || d.ip.isNone then
    { hop := k, ip := d.ip, rtt := none, loss := min 100 100,
      timeout := d.timeout, isPrivate := d.isPrivate }
  else if d.rtts.length > 0 then
    { hop := k, ip := d.ip, rtt := some (d.rtts.sum / d.rtts.length),
      loss := min (((3 - (d.rtts.length : ℚ)) / 3) * 100) 100,
      timeout := d.timeout, isPrivate := d.isPrivate }
  else
    { hop := k, ip := d.ip, rtt := none, loss := min 0 100,
      timeout := d.timeout, isPrivate := d.isPrivate }

/-- `parseTracerouteOutput` (current revision). -/
def parseTracerouteOutput (output : String) : List HopRec :=
  sortHops (((trLoop ⟨[], 0⟩ (splitOnNl output.toList)).hopMap).map
    fun e => assembleTr e.1 e.2)

/-! ### mtr parser -/

/-- `\s+`: at least one whitespace character. -/
def eatWs1 (cs : List Char) : Option (List Char) :=
  let ws := cs.takeWhile isWsC
  if ws.isEmpty then none else some (cs.drop ws.length)

/-- `(\d+)`: a non-empty digit run (always followed, in the patterns
below, by a character outside the class, so maximal munch is exact). -/
def eatDigits1 (cs : List Char) : Option (List Char × List Char) :=
  let ds := cs.takeWhile isDigitC
  if ds.isEmpty then none else some (ds, cs.drop ds.length)

/-- `(\S+)`: a non-empty run of non-whitespace characters. -/
def eatNonWs1 (cs : List Char) : Option (List Char × List Char) :=
  let ds := cs.takeWhile (fun c => !c.isWhitespace)
  if ds.isEmpty then none else some (ds, cs.drop ds.length)

/-- `([\d.]+)`: a non-empty run of digits and dots. -/
def eatDotDigits1 (cs : List Char) : Option (List Char × List Char) :=
  let ds := cs.takeWhile isDotDigitC
  if ds.isEmpty then none else some (ds, cs.drop ds.length)

/-- JavaScript `a || b` on a number where `a` may be `NaN` (`none`) or `0`,
both falsy. -/
def jsNumOr (a : Option ℚ) (b : ℚ) : ℚ :=
  match a with
  | some v => if v = 0 then b else v
  | none => b

/-- Anchored match of the mtr report line pattern
`/^\s*(\d+)\.\s+(\S+)\s+([\d.]+)%\s+\d+\s+([\d.]+)\s+([\d.]+)\s+([\d.]+)\s+([\d.]+)/`,
returning hop number, address token, and the loss / last / avg captures. -/
def mtrMatch (cs : List Char) : Option (Nat × String × List Char × List Char × List Char) :=
  (eatDigits1 (cs.dropWhile isWsC)).bind fun (hopDs, cs) =>
  match cs with
  | '.' :: cs =>
    (eatWs1 cs).bind fun cs =>
    (eatNonWs1 cs).bind fun (ipCs, cs) =>
    (eatWs1 cs).bind fun cs =>
    (eatDotDigits1 cs).bind fun (lossCs, cs) =>
    match cs with
    | '%' :: cs =>
      (eatWs1 cs).bind fun cs =>
      (eatDigits1 cs).bind fun (_sent, cs) =>
      (eatWs1 cs).bind fun cs =>
      (eatDotDigits1 cs).bind fun (lastCs, cs) =>
      (eatWs1 cs).bind fun cs =>
      (eatDotDigits1 cs).bind fun (avgCs, cs) =>
      (eatWs1 cs).bind fun cs =>
      (eatDotDigits1 cs).bind fun (_bestCs, cs) =>
      (eatWs1 cs).bind fun cs =>
      (eatDotDigits1 cs).map fun (_worstCs, _) =>
      (digitsVal hopDs, String.mk ipCs, lossCs, lastCs, avgCs)
    | _ => none
  | _ => none

/-- One line of `parseMtrOutput` (current revision): lines whose address
token holds no dotted-quad are discarded; `rtt` is
`parseFloat(avgRtt) || parseFloat(lastRtt) || 0` and `loss` is
`parseFloat(lossPercent) || 0`. -/
def parseMtrLine (line : List Char) : Option HopRec :=
  (mtrMatch line).bind fun (hopNum, ip, lossCs, lastCs, avgCs) =>
  if (firstIPv4 ip.toList).isNone then none
  else
    some { hop := hopNum, ip := some ip,
           rtt := some (jsNumOr (parseFloatDots avgCs) (jsNumOr (parseFloatDots lastCs) 0)),
           loss := jsNumOr (parseFloatDots lossCs) 0,
           timeout := false, isPrivate := isPrivateIP ip }

/-- `parseMtrOutput` (current revision). -/
def parseMtrOutput (output : String) : List HopRec :=
  (splitOnNl output.toList).filterMap parseMtrLine

/-! ### tcptraceroute parser -/

/-- `\d+\.\d+\.\d+\.\d+` anchored at the head (unbounded octets). -/
def tcpIpAt (cs : List Char) : Option (List Char × List Char) :=
  (eatDigits1 cs).bind fun (o1, cs) =>
  match cs with
  | '.' :: cs =>
    (eatDigits1 cs).bind fun (o2, cs) =>
    match cs with
    | '.' :: cs =>
      (eatDigits1 cs).bind fun (o3, cs) =>
      match cs with
      | '.' :: cs =>
        (eatDigits1 cs).map fun (o4, cs) =>
        (o1 ++ '.' :: o2 ++ '.' :: o3 ++ '.' :: o4, cs)
      | _ => none
    | _ => none
  | _ => none

/-- One optional group `(?:([\d.]+) ms\s*)?` of the tcptraceroute pattern:
a digits-and-dots capture, a single space, the literal `ms`, then optional
whitespace.  (The third group lacks the trailing `\s*`, which only moves
the match end and affects nothing.) -/
def tcpGroup (cs : List Char) : Option (Option ℚ × List Char) :=
  (eatDotDigits1 cs).bind fun (numCs, cs) =>
  match cs with
  | ' ' :: 'm' :: 's' :: cs => some (parseFloatDots numCs, cs.dropWhile isWsC)
  | _ => none

/-- Up to three consecutive optional RTT groups; once one fails the later
identical groups fail at the same position, so collection stops.  A capture
whose `parseFloat` is `NaN` is not representable in `ℚ` and is dropped
(the source would push `NaN` into the average, poisoning it; no claim
depends on this corner). -/
def tcpGroups (cs : List Char) : List ℚ :=
  match tcpGroup cs with
  | none => []
  | some (q1, cs1) =>
    match tcpGroup cs1 with
    | none => q1.toList
    | some (q2, cs2) =>
      match tcpGroup cs2 with
      | none => q1.toList ++ q2.toList
      | some (q3, _) => q1.toList ++ q2.toList ++ q3.toList

/-- One line of `parseTcptracerouteOutput`
(`/^\s*(\d+)\s+(\d+\.\d+\.\d+\.\d+)\s+(?:([\d.]+) ms\s*)?(?:([\d.]+) ms\s*)?(?:([\d.]+) ms)?/`):
missing duration fields reduce the sample count and raise the computed
loss, with `timeout` always `false`. -/
def parseTcpLine (line : List Char) : Option HopRec :=
  (eatDigits1 (line.dropWhile isWsC)).bind fun (hopDs, cs) =>
  (eatWs1 cs).bind fun cs =>
  (tcpIpAt cs).bind fun (ipCs, cs) =>
  (eatWs1 cs).map fun cs =>
  let rtts := tcpGroups cs
  let ip := String.mk ipCs
  { hop := digitsVal hopDs, ip := some ip,
    rtt := some (if rtts.length > 0 then rtts.sum / rtts.length else 0),
    loss := ((3 - (rtts.length : ℚ)) / 3) * 100,
    timeout := false, isPrivate := isPrivateIP ip }

/-- `parseTcptracerouteOutput` (current revision). -/
def parseTcptracerouteOutput (output : String) : List HopRec :=
  (splitOnNl output.toList).filterMap parseTcpLine

/-! ### Enrichment pipeline -/

/-- Result of the external geolocation collaborator (the fields the
pipeline reads; the service always supplies strings, `null` only for the
coordinates). -/
structure GeoResult where
  lat : Option ℚ
  lon : Option ℚ
  city : String
  country : String
deriving DecidableEq

/-- Result of the external ASN collaborator. -/
structure AsnResult where
  asn : Option String
  org : Option String
  isCdn : Bool
  cdnProvider : Option String
deriving DecidableEq

/-- JavaScript `s || d` on a string value (empty string is falsy). -/
def jsStrOr (s : String) (d : String) : String :=
  if s = "" then d else s

/-- JavaScript `a || d` on a nullable string against a string default. -/
def jsOptStrOr (a : Option String) (d : String) : String :=
  match a with
  | some s => if s = "" then d else s
  | none => d

/-- An enriched hop (`enrichHops` output, later written in place by the
cable analysis and the distance aggregator). -/
structure EHop where
  hop : Nat
  ip : Option String
  rtt : Option ℚ
  loss : ℚ
  timeout : Bool
  isPrivate : Bool
  lat : Option ℚ
  lon : Option ℚ
  city : String
  country : String
  asn : String
  asnOrg : String
  isCdn : Bool
  cdnProvider : Option String
  routeType : String
  cableUsed : Option String
  location : String
  distanceToNext : Option ℤ
deriving DecidableEq

/-- `enrichHops` body for one hop (current revision).  The external
lookups are total functions here, so the per-hop `try`/`catch` arm that
substitutes `'Error'` placeholders is unreachable in the model. -/
def enrichHop (geo : String → GeoResult) (asnSvc : String → AsnResult)
    (h : HopRec) : EHop :=
  if h.timeout || h.ip.isNone || h.isPrivate then
    { hop := h.hop, ip := h.ip, rtt := h.rtt, loss := h.loss,
      timeout := h.timeout, isPrivate := h.isPrivate,
      lat := none, lon := none,
      city := if h.isPrivate then "Private Network" else "Unknown",
      country := if h.isPrivate then "Local" else "Unknown",
      asn := if h.isPrivate then "Private" else "Unknown",
      asnOrg := if h.isPrivate then "Private Network" else "Unknown",
      isCdn := false, cdnProvider := none,
      routeType := "land", cableUsed := none,
      location := if h.isPrivate then "Private IP Range" else "Unresolved",
      distanceToNext := none }
  else
    let g := geo (h.ip.getD "")
    let a := asnSvc (h.ip.getD "")
    { hop := h.hop, ip := h.ip, rtt := h.rtt, loss := h.loss,
      timeout := h.timeout, isPrivate := h.isPrivate,
      lat := g.lat, lon := g.lon,
      city := jsStrOr g.city "Unknown",
      country := jsStrOr g.country "Unknown",
      asn := jsOptStrOr a.asn "Unknown",
      asnOrg := jsOptStrOr a.org "Unknown",
      isCdn := a.isCdn, cdnProvider := a.cdnProvider,
      routeType := "land", cableUsed := none,
      location := if g.city ≠ "" ∧ g.country ≠ "" then g.city ++ ", " ++ g.country
                  else "Unknown",
      distanceToNext := none }

def enrichHops (geo : String → GeoResult) (asnSvc : String → AsnResult)
    (hops : List HopRec) : List EHop :=
  hops.map (enrichHop geo asnSvc)

/-- The post-orchestrator control flow of `traceRoute`: zero hops yield the
structured failure, otherwise the parsed hop list is handed to enrichment
(and from there to cable analysis, distances, CDN detection and timing)
unchanged — there is no trimming step anywhere in between. -/
inductive TraceOutcome where
  | failure (msg : String)
  | success (hops : List EHop)
deriving DecidableEq

def traceRouteFromHops (geo : String → GeoResult) (asnSvc : String → AsnResult)
    (hops : List HopRec) : TraceOutcome :=
  if hops.length = 0 then .failure "Traceroute failed - no hops returned"
  else .success (enrichHops geo asnSvc hops)

/-! ### Distance aggregator -/

/-- JavaScript truthiness of a number-or-null latitude (`!hop.lat`):
`null` and `0` are falsy.  (The source additionally rejects the literal
string `'null'` and `NaN` after string coercion; coordinates are numeric
or `null` here, so those guards are identity.) -/
def latTruthy : Option ℚ → Bool
  | none => false
  | some x => x != 0

/-- `Math.round` on an exact rational. -/
def roundQ (q : ℚ) : ℤ := round q

/-- The pair loop of `calculateDistances` (current revision), carrying the
three running sums left to right and writing each processed leading hop's
rounded `distanceToNext` in place.  `dist` abstracts
`this.haversineDistance` (transcendental, hence not executable exactly);
argument order is `lat1 lon1 lat2 lon2`. -/
def calcDistLoop (dist : ℚ → ℚ → ℚ → ℚ → ℚ) (T L S : ℚ) :
    List EHop → List EHop × ℚ × ℚ × ℚ
  | [] => ([], T, L, S)
  | [h] => ([h], T, L, S)
  | h1 :: h2 :: rest =>
    if latTruthy h1.lat && latTruthy h2.lat then
      let d := dist (h1.lat.getD 0) (h1.lon.getD 0) (h2.lat.getD 0) (h2.lon.getD 0)
      let isSea := h1.routeType == "sea"
      let out := calcDistLoop dist (T + d) (if isSea then L else L + d)
        (if isSea then S + d else S) (h2 :: rest)
      ({ h1 with distanceToNext := some (roundQ d) } :: out.1, out.2)
    else
      let out := calcDistLoop dist T L S (h2 :: rest)
      (h1 :: out.1, out.2)

/-- `hops[hops.length - 1].distanceToNext = 0` (applied when non-empty). -/
def setLastDistZero : List EHop → List EHop
  | [] => []
  | [h] => [{ h with distanceToNext := some 0 }]
  | h :: h2 :: t => h :: setLastDistZero (h2 :: t)

structure DistResult where
  hops : List EHop
  total : ℤ
  land : ℤ
  sea : ℤ
deriving DecidableEq

/-- `calculateDistances` (current revision). -/
def calculateDistances (dist : ℚ → ℚ → ℚ → ℚ → ℚ) (hops : List EHop) : DistResult :=
  let r := calcDistLoop dist 0 0 0 hops
  { hops := setLastDistZero r.1,
    total := roundQ r.2.1, land := roundQ r.2.2.1, sea := roundQ r.2.2.2 }

/-! ### Total time -/

/-- The scan predicate of `calculateTotalTime`:
`hops[i].rtt !== null && !hops[i].timeout && hops[i].rtt > 0`. -/
def isValidRtt (h : EHop) : Bool :=
  h.rtt.isSome && !h.timeout && decide (0 < h.rtt.getD 0)

/-- The backward index scan of `calculateTotalTime`: the last hop of the
list satisfying `isValidRtt`. -/
def lastValidHop : List EHop → Option EHop
  | [] => none
  | h :: t =>
    match lastValidHop t with
    | some x => some x
    | none => if isValidRtt h then some h else none

/-- `Math.round(x * 1000) / 1000`. -/
def round3 (q : ℚ) : ℚ := (roundQ (q * 1000) : ℚ) / 1000

/-- `calculateTotalTime` (current revision): the selected hop's RTT is
reported as the round trip itself — rounded to three decimals, never
halved — and the absence of any valid hop yields `0`, not an error. -/
def calculateTotalTime (hops : List EHop) : ℚ :=
  if hops.isEmpty then 0
  else
    match lastValidHop hops with
    | none => 0
    | some h => round3 (h.rtt.getD 0)

/-! ### Cable analysis (`cableService.js`, current revision) -/

/-- The `properties` of one cable feature of the external geometry
dataset (the fields `analyzeCableUsage` reads; the polyline geometry item
is consumed only inside the abstracted geometric matcher). -/
structure CableProps where
  id : Option String
  cable_id : Option String
  name : Option String
  clength : Option String
  rfs : Option String
  owners : Option String
deriving DecidableEq

structure Cable where
  props : CableProps
deriving DecidableEq

/-- A record of the metadata API (`getCableMetadata` result):
`ownerName` stands for `owners?.[0]?.name`. -/
structure CableMeta where
  mlength : Option String
  rfs_year : Option String
  ownerName : Option String
  url : Option String
  capacity_tbps : Option ℚ
deriving DecidableEq

/-- One recorded `CableSegment`. -/
structure CableInfo where
  id : String
  name : String
  fromCountry : String
  toCountry : String
  fromCity : String
  toCity : String
  hopRange : String
  distance : ℤ
  clength : String
  rfs : String
  owners : String
  url : Option String
  capacity : Option ℚ
deriving DecidableEq

/-- `cable.properties?.name || 'Unknown Cable'`. -/
def cableNameOf (c : Cable) : String :=
  jsOptStrOr c.props.name "Unknown Cable"

/-- `cable.properties?.id || cable.properties?.cable_id || cableName`. -/
def cableIdOf (c : Cable) : String :=
  jsOptStrOr c.props.id (jsOptStrOr c.props.cable_id (cableNameOf c))

/-- `metadata?.url || null` and `metadata?.capacity_tbps || null`
(empty string and zero are falsy). -/
def jsOptStrOrNull (a : Option String) : Option String :=
  match a with
  | some s => if s = "" then none else some s
  | none => none

def jsOptNumOrNull (a : Option ℚ) : Option ℚ :=
  match a with
  | some v => if v = 0 then none else some v
  | none => none

/-- The external pieces `analyzeCableUsage` consumes: the haversine
`calculateDistance`, the geometric matcher `findNearestCable` (whose
point-to-segment computation involves square roots) and the metadata
lookup `getCableMetadata`; all abstracted as total functions and
universally quantified in every theorem below. -/
structure CableCfg where
  calcDist : ℚ → ℚ → ℚ → ℚ → ℚ
  findCable : EHop → EHop → Option Cable
  getMeta : String → Option CableMeta

/-- The `cableInfo` object pushed for a newly matched cable. -/
def mkCableInfo (cfg : CableCfg) (h1 h2 : EHop) (d : ℚ) (c : Cable)
    (cableName cableId : String) : CableInfo :=
  let md := cfg.getMeta cableName
  { id := cableId, name := cableName,
    fromCountry := h1.country, toCountry := h2.country,
    fromCity := jsStrOr h1.city "Unknown",
    toCity := jsStrOr h2.city "Unknown",
    hopRange := toString h1.hop ++ "-" ++ toString h2.hop,
    distance := roundQ d,
    clength := jsOptStrOr (md.bind fun m => m.mlength) (jsOptStrOr c.props.clength "N/A"),
    rfs := jsOptStrOr (md.bind fun m => m.rfs_year) (jsOptStrOr c.props.rfs "N/A"),
    owners := jsOptStrOr (md.bind fun m => m.ownerName) (jsOptStrOr c.props.owners "N/A"),
    url := jsOptStrOrNull (md.bind fun m => m.url),
    capacity := jsOptNumOrNull (md.bind fun m => m.capacity_tbps) }

/-- One iteration of the `analyzeCableUsage` pair loop over the state
`(cablesUsed, usedCableIds)`; the submarine-route criterion is
`(distance > 800 && differentCountries) || (markedAsSea && distance > 500)`. -/
def cableStep (cfg : CableCfg) (st : List CableInfo × List String)
    (p : EHop × EHop) : List CableInfo × List String :=
  if !(latTruthy p.1.lat) || !(latTruthy p.2.lat) then st
  else
    if (cfg.calcDist (p.1.lat.getD 0) (p.1.lon.getD 0) (p.2.lat.getD 0) (p.2.lon.getD 0)
          > 800 ∧ p.1.country ≠ p.2.country)
        ∨ (p.1.routeType = "sea"
          ∧ cfg.calcDist (p.1.lat.getD 0) (p.1.lon.getD 0) (p.2.lat.getD 0) (p.2.lon.getD 0)
            > 500) then
      match cfg.findCable p.1 p.2 with
      | none => st
      | some cable =>
        if st.2.contains (cableIdOf cable) then st
        else
          (st.1 ++ [mkCableInfo cfg p.1 p.2
              (cfg.calcDist (p.1.lat.getD 0) (p.1.lon.getD 0) (p.2.lat.getD 0) (p.2.lon.getD 0))
              cable (cableNameOf cable) (cableIdOf cable)],
            st.2 ++ [cableIdOf cable])
    else st

/-- The adjacent pairs `(hops[i], hops[i+1])` in loop order. -/
def adjPairs (l : List α) : List (α × α) := l.zip l.tail

/-- `analyzeCableUsage` (current revision) after the dataset has loaded:
the deduplicating pair loop.  (With an empty dataset the source returns
`[]` before the loop; the loop with a `findCable` that never matches
yields the same.) -/
def analyzeCableUsage (cfg : CableCfg) (hops : List EHop) : List CableInfo :=
  ((adjPairs hops).foldl (cableStep cfg) ([], [])).1

/-! ### Probe orchestrator (`runTraceroute`, Unix chain, current revision)

A diagnostic attempt either succeeds with its stdout or throws; a thrown
error may still carry partial stdout (`error.stdout`). -/

inductive ExecAttempt where
  | ok (stdout : String)
  | err (partialStdout : Option String)
deriving DecidableEq

/-- The traceroute attempt also exposes stderr on success (for the ICMP
permission check). -/
inductive TrExecAttempt where
  | ok (stdout stderr : String)
  | err (partialStdout : Option String)
deriving DecidableEq

/-- The `catch (tracerouteError)` handler: parse the partial stdout if
any; if that recovered hops, return them, otherwise fall through to the
tcptraceroute attempt, whose own failure returns `[]` — its partial
stdout, like mtr's, is never parsed. -/
def trCatch (p : Option String) (tcpA : ExecAttempt) : List HopRec :=
  let partialHops := match p with
    | some s => parseTracerouteOutput s
    | none => []
  if partialHops.length > 0 then partialHops
  else
    match tcpA with
    | .ok out => parseTcptracerouteOutput out
    | .err _ => []

/-- The Unix fallback chain of `runTraceroute`: mtr, then traceroute
(with one ICMP-permission retry whose own throw lands in the same catch),
then tcptraceroute.  A failed mtr attempt falls through without its
partial stdout being parsed. -/
def runTracerouteUnix (mtrA : ExecAttempt) (trA : TrExecAttempt)
    (retryA : ExecAttempt) (tcpA : ExecAttempt) : List HopRec :=
  match mtrA with
  | .ok out => parseMtrOutput out
  | .err _ =>
    match trA with
    | .ok out stderr =>
      if containsSub stderr "Operation not permitted" then
        match retryA with
        | .ok out2 => parseTracerouteOutput out2
        | .err p => trCatch p tcpA
      else parseTracerouteOutput out
    | .err p => trCatch p tcpA

/-! ### Structural lemmas about the parsers -/

instance : IsTotal HopRec (fun a b => a.hop ≤ b.hop) :=
  ⟨fun a b => Nat.le_total a.hop b.hop⟩

instance : IsTrans HopRec (fun a b => a.hop ≤ b.hop) :=
  ⟨fun _ _ _ hab hbc => Nat.le_trans hab hbc⟩

theorem sortHops_perm (l : List HopRec) : List.Perm (sortHops l) l :=
  List.perm_insertionSort _ l

theorem sortHops_sorted (l : List HopRec) :
    List.Sorted (fun a b : HopRec => a.hop ≤ b.hop) (sortHops l) :=
  List.sorted_insertionSort _ l

theorem assembleWin_hop (k : Nat) (d : WinHopData) : (assembleWin k d).hop = k := by
  unfold assembleWin
  split
  · rfl
  · split <;> rfl

theorem assembleTr_hop (k : Nat) (d : TrHopData) : (assembleTr k d).hop = k := by
  unfold assembleTr
  split
  · rfl
  · split <;> rfl

theorem assembleWin_timeout (k : Nat) (d : WinHopData) :
    (assembleWin k d).timeout = true →
    (assembleWin k d).rtt = none ∧ (assembleWin k d).loss = 100 := by
  unfold assembleWin
  by_cases hc : (d.timeout || d.ip.isNone) = true
  · rw [if_pos hc]
    intro _
    exact ⟨rfl, by norm_num⟩
  · rw [if_neg hc]
    split <;> · intro ht; exact absurd ht (by simpa using hc)

theorem assembleTr_timeout (k : Nat) (d : TrHopData) :
    (assembleTr k d).timeout = true →
    (assembleTr k d).rtt = none ∧ (assembleTr k d).loss = 100 := by
  unfold assembleTr
  by_cases hc : (d.timeout || d.ip.isNone) = true
  · rw [if_pos hc]
    intro _
    exact ⟨rfl, by norm_num⟩
  · rw [if_neg hc]
    have hdt : d.timeout = false := by
      cases hb : d.timeout
      · rfl
      · exact absurd (by simp [hb]) hc
    split <;> · intro ht; exact absurd ht (by simp [hdt])

theorem mem_parseWindowsTracert {out : String} {h : HopRec}
    (hm : h ∈ parseWindowsTracert out) : ∃ k d, h = assembleWin k d := by
  unfold parseWindowsTracert at hm
  have hm2 := (sortHops_perm _).mem_iff.1 hm
  rcases List.mem_map.1 hm2 with ⟨e, _, he⟩
  exact ⟨e.1, e.2, he.symm⟩

theorem mem_parseTracerouteOutput {out : String} {h : HopRec}
    (hm : h ∈ parseTracerouteOutput out) : ∃ k d, h = assembleTr k d := by
  unfold parseTracerouteOutput at hm
  have hm2 := (sortHops_perm _).mem_iff.1 hm
  rcases List.mem_map.1 hm2 with ⟨e, _, he⟩
  exact ⟨e.1, e.2, he.symm⟩

theorem parseMtrLine_timeout {line : List Char} {h : HopRec}
    (hm : parseMtrLine line = some h) : h.timeout = false := by
  unfold parseMtrLine at hm
  rcases Option.bind_eq_some.1 hm with ⟨⟨hopNum, ip, lossCs, lastCs, avgCs⟩, _, hf⟩
  dsimp only at hf
  by_cases hip : (firstIPv4 ip.toList).isNone = true
  · rw [if_pos hip] at hf; cases hf
  · rw [if_neg hip] at hf; cases hf; rfl

theorem parseTcpLine_timeout {line : List Char} {h : HopRec}
    (hm : parseTcpLine line = some h) : h.timeout = false := by
  unfold parseTcpLine at hm
  rcases Option.bind_eq_some.1 hm with ⟨⟨hopDs, cs⟩, _, hf⟩
  rcases Option.bind_eq_some.1 hf with ⟨cs1, _, hf2⟩
  rcases Option.bind_eq_some.1 hf2 with ⟨⟨ipCs, cs2⟩, _, hf3⟩
  rcases Option.map_eq_some'.1 hf3 with ⟨cs3, _, he⟩
  exact he ▸ rfl

theorem keysOf_append_single (m : List (Nat × α)) (k : Nat) (d : α) :
    keysOf (m ++ [(k, d)]) = keysOf m ++ [k] := by
  simp [keysOf]

theorem ensure_nodup (m : List (Nat × α)) (k : Nat) (d : α)
    (h : (keysOf m).Nodup) :
    (keysOf (if mapHas m k then m else m ++ [(k, d)])).Nodup := by
  split
  · exact h
  · next hnc =>
    have hk : k ∉ keysOf m := fun hkk => hnc ((mapHas_iff m k).2 hkk)
    rw [keysOf_append_single]
    simp [List.nodup_append, h, hk]

theorem keysOf_winBump (m : List (Nat × WinHopData)) (k : Nat) :
    keysOf (winBump m k) = keysOf m := keysOf_mapUpdate m k _

theorem keysOf_winSetTimeout (m : List (Nat × WinHopData)) (k : Nat) :
    keysOf (winSetTimeout m k) = keysOf m := keysOf_mapUpdate m k _

theorem keysOf_winSetIp (m : List (Nat × WinHopData)) (k : Nat) (o : Option String) :
    keysOf (winSetIp m k o) = keysOf m := by
  unfold winSetIp
  cases o
  · rfl
  · exact keysOf_mapUpdate m k _

theorem winEnsure_nodup (m : List (Nat × WinHopData)) (k : Nat)
    (h : (keysOf m).Nodup) : (keysOf (winEnsure m k)).Nodup :=
  ensure_nodup m k freshWin h

theorem winLineCore_nodup (st : WinState) (tl : List Char)
    (h : (keysOf st.hopMap).Nodup) : (keysOf (winLineCore st tl).hopMap).Nodup := by
  unfold winLineCore
  split
  · exact h
  · split
    · split
      · split
        · simpa [keysOf_mapUpdate] using h
        · exact h
      · exact h
    · split
      · simpa [keysOf_winSetTimeout, keysOf_winBump] using winEnsure_nodup st.hopMap _ h
      · simpa [keysOf_mapUpdate, keysOf_winSetIp, keysOf_winBump] using
          winEnsure_nodup st.hopMap _ h

theorem winLine_nodup (st : WinState) (line : List Char)
    (h : (keysOf st.hopMap).Nodup) : (keysOf (winLine st line).hopMap).Nodup :=
  winLineCore_nodup st (trimChar line) h

theorem foldl_winLine_nodup (lines : List (List Char)) :
    ∀ st : WinState, (keysOf st.hopMap).Nodup →
      (keysOf (lines.foldl winLine st).hopMap).Nodup := by
  induction lines with
  | nil => exact fun st h => h
  | cons line rest ih => exact fun st h => ih _ (winLine_nodup st line h)

theorem keysOf_trSetTimeout (m : List (Nat × TrHopData)) (k : Nat) :
    keysOf (trSetTimeout m k) = keysOf m := keysOf_mapUpdate m k _

theorem keysOf_trDataUpd (m : List (Nat × TrHopData)) (k : Nat) (r : List Char) :
    keysOf (trDataUpd m k r) = keysOf m := by
  unfold trDataUpd
  cases firstIPv4 r <;> simp [keysOf_mapUpdate]

theorem trEnsure_nodup (m : List (Nat × TrHopData)) (k : Nat)
    (h : (keysOf m).Nodup) : (keysOf (trEnsure m k)).Nodup :=
  ensure_nodup m k freshTr h

theorem trLoop_nodup (lines : List (List Char)) :
    ∀ st : TrState, (keysOf st.hopMap).Nodup →
      (keysOf (trLoop st lines).hopMap).Nodup := by
  induction lines with
  | nil => intro st h; exact h
  | cons line rest ih =>
    intro st h
    rw [trLoop]
    split
    · exact ih _ h
    · split
      · exact ih _ h
      · split
        · split
          · simpa [keysOf_trSetTimeout] using trEnsure_nodup st.hopMap _ h
          · exact ih _ (by simpa [keysOf_trSetTimeout] using trEnsure_nodup st.hopMap _ h)
        · exact ih _ (by simpa [keysOf_trDataUpd] using trEnsure_nodup st.hopMap _ h)

theorem sortHops_map_hop_nodup {l : List HopRec} (h : (l.map HopRec.hop).Nodup) :
    ((sortHops l).map HopRec.hop).Nodup :=
  ((sortHops_perm l).map HopRec.hop).nodup_iff.2 h

theorem map_hop_assembleWin (m : List (Nat × WinHopData)) :
    (m.map fun e => assembleWin e.1 e.2).map HopRec.hop = keysOf m := by
  induction m with
  | nil => rfl
  | cons e t ih =>
    simp only [List.map_cons, assembleWin_hop, keysOf] at *
    rw [ih]

theorem map_hop_assembleTr (m : List (Nat × TrHopData)) :
    (m.map fun e => assembleTr e.1 e.2).map HopRec.hop = keysOf m := by
  induction m with
  | nil => rfl
  | cons e t ih =>
    simp only [List.map_cons, assembleTr_hop, keysOf] at *
    rw [ih]

/-! ### The claims about the parsers -/

/-- C2: for every parsed hop produced by any output parser (Windows
tracert, standard traceroute, mtr, tcptraceroute), `timeout == true`
implies `rtt == null` and `loss == 100`. -/
theorem claim_C2_timeout_implies_no_rtt_full_loss (out : String) :
    (∀ h ∈ parseWindowsTracert out, h.timeout = true → h.rtt = none ∧ h.loss = 100) ∧
    (∀ h ∈ parseTracerouteOutput out, h.timeout = true → h.rtt = none ∧ h.loss = 100) ∧
    (∀ h ∈ parseMtrOutput out, h.timeout = true → h.rtt = none ∧ h.loss = 100) ∧
    (∀ h ∈ parseTcptracerouteOutput out, h.timeout = true → h.rtt = none ∧ h.loss = 100) := by
  refine ⟨?_, ?_, ?_, ?_⟩
  · intro h hm ht
    rcases mem_parseWindowsTracert hm with ⟨k, d, rfl⟩
    exact assembleWin_timeout k d ht
  · intro h hm ht
    rcases mem_parseTracerouteOutput hm with ⟨k, d, rfl⟩
    exact assembleTr_timeout k d ht
  · intro h hm ht
    rcases List.mem_filterMap.1 hm with ⟨line, _, hl⟩
    exact absurd ht (by simp [parseMtrLine_timeout hl])
  · intro h hm ht
    rcases List.mem_filterMap.1 hm with ⟨line, _, hl⟩
    exact absurd ht (by simp [parseTcpLine_timeout hl])

/-- Witness for C2 at the concrete timeout line `"2  *"` of a Windows
trace. -/
theorem claim_C2_witness :
    ({ hop := 2, ip := none, rtt := none, loss := 100, timeout := true,
       isPrivate := false } : HopRec).rtt = none ∧
    ({ hop := 2, ip := none, rtt := none, loss := 100, timeout := true,
       isPrivate := false } : HopRec).loss = 100 :=
  (claim_C2_timeout_implies_no_rtt_full_loss "2  *").1
    { hop := 2, ip := none, rtt := none, loss := 100, timeout := true,
      isPrivate := false }
    (by decide) rfl

/-- C4: for every raw text input, the two multi-line-merging parsers
(Windows tracert and standard traceroute) return hop lists sorted by
non-decreasing ordinal with no duplicate ordinals, regardless of input
line order or interleaving. -/
theorem claim_C4_sorted_nodup (out : String) :
    (List.Sorted (· ≤ ·) ((parseWindowsTracert out).map HopRec.hop) ∧
      ((parseWindowsTracert out).map HopRec.hop).Nodup) ∧
    (List.Sorted (· ≤ ·) ((parseTracerouteOutput out).map HopRec.hop) ∧
      ((parseTracerouteOutput out).map HopRec.hop).Nodup) := by
  constructor
  · constructor
    · exact List.pairwise_map.2 (sortHops_sorted _)
    · rw [parseWindowsTracert]
      exact sortHops_map_hop_nodup (by
        rw [map_hop_assembleWin]
        exact foldl_winLine_nodup _ ⟨[], none, 0⟩ List.nodup_nil)
  · constructor
    · exact List.pairwise_map.2 (sortHops_sorted _)
    · rw [parseTracerouteOutput]
      exact sortHops_map_hop_nodup (by
        rw [map_hop_assembleTr]
        exact trLoop_nodup _ ⟨[], 0⟩ List.nodup_nil)

/-! ### C1: the loss range -/

/-- A Windows trace whose hop 1 spans two physical lines with three RTT
samples each, so six samples accumulate for one hop ordinal. -/
def c1Input : String := "1  1 ms  2 ms  3 ms  10.0.0.1\n1  4 ms  5 ms  6 ms  10.0.0.1"

def c1HopData : WinHopData :=
  { ip := some "10.0.0.1", rtts := [1, 2, 3, 4, 5, 6],
    timeout := false, isPrivate := true, hopLines := 2 }

/-- C1 (code bug): with more than three RTT samples merged for one hop
ordinal, `loss = ((3 - samples) / 3) * 100` is negative and
`Math.min(loss, 100)` clamps only the upper bound, so the parsed hop
violates `0 ≤ loss`.  On `c1Input` the single parsed hop carries
`loss = -100`. -/
theorem claim_C1_loss_below_zero :
    (parseWindowsTracert c1Input).map HopRec.loss = [-100] ∧
    ∃ h ∈ parseWindowsTracert c1Input, h.loss < 0 := by
  have hmap : ((splitOnNl c1Input.toList).foldl winLine ⟨[], none, 0⟩).hopMap
      = [(1, c1HopData)] := by decide
  have hparse : parseWindowsTracert c1Input = [assembleWin 1 c1HopData] := by
    rw [parseWindowsTracert, hmap]
    rfl
  have hloss : (assembleWin 1 c1HopData).loss = -100 := by
    norm_num [assembleWin, c1HopData, min_def]
  constructor
  · rw [hparse, List.map_singleton, hloss]
  · exact ⟨assembleWin 1 c1HopData, by rw [hparse]; exact List.mem_singleton_self _,
      by rw [hloss]; norm_num⟩

/-! ### C3: no trailing-timeout trimming exists -/

/-- A trace whose parsed hops end in an address-less timeout hop. -/
def c3Input : String := "1  10.0.0.1  1.0 ms\n2  *"

/-- A fixed stand-in for the external geolocation collaborator. -/
def geoStub : String → GeoResult :=
  fun _ => { lat := none, lon := none, city := "Unknown", country := "Unknown" }

/-- A fixed stand-in for the external ASN collaborator. -/
def asnStub : String → AsnResult :=
  fun _ => { asn := none, org := none, isCdn := false, cdnProvider := none }

theorem traceRouteFromHops_success (geo : String → GeoResult)
    (asnSvc : String → AsnResult) (hops : List HopRec) (h : hops.length ≠ 0) :
    traceRouteFromHops geo asnSvc hops = .success (enrichHops geo asnSvc hops) := by
  unfold traceRouteFromHops
  rw [if_neg h]

/-- C3 counterexample: the hop list of `c3Input` ends in an address-less
timeout hop, and that hop is still present — untouched — in the sequence
handed to enrichment and all downstream analysis: no trimming happens. -/
theorem claim_C3_counterexample :
    ((parseTracerouteOutput c3Input).map fun h => (h.hop, h.ip, h.timeout))
      = [(1, some "10.0.0.1", false), (2, none, true)] ∧
    traceRouteFromHops geoStub asnStub (parseTracerouteOutput c3Input)
      = .success (enrichHops geoStub asnStub (parseTracerouteOutput c3Input)) ∧
    ((enrichHops geoStub asnStub (parseTracerouteOutput c3Input)).map
      fun e => (e.hop, e.ip, e.timeout))
      = [(1, some "10.0.0.1", false), (2, none, true)] :=
  ⟨by decide, traceRouteFromHops_success _ _ _ (by decide), by decide⟩

theorem enrichHop_proj (geo : String → GeoResult) (asnSvc : String → AsnResult)
    (h : HopRec) :
    ((enrichHop geo asnSvc h).hop, (enrichHop geo asnSvc h).ip,
      (enrichHop geo asnSvc h).timeout) = (h.hop, h.ip, h.timeout) := by
  unfold enrichHop
  split <;> rfl

/-- C3 amended: the implementation performs no trailing trimming at all;
the parsed hop sequence reaches downstream analysis with every hop —
including any trailing address-less timeout run — preserved in order,
ordinal, address and timeout flag, and an empty hop list is turned into
the structured no-hops failure instead. -/
theorem claim_C3_no_trimming (geo : String → GeoResult)
    (asnSvc : String → AsnResult) (hops : List HopRec) :
    ((enrichHops geo asnSvc hops).map fun e => (e.hop, e.ip, e.timeout))
      = hops.map (fun h => (h.hop, h.ip, h.timeout)) ∧
    (enrichHops geo asnSvc hops).length = hops.length ∧
    (hops.length ≠ 0 →
      traceRouteFromHops geo asnSvc hops = .success (enrichHops geo asnSvc hops)) := by
  refine ⟨?_, by simp [enrichHops], traceRouteFromHops_success geo asnSvc hops⟩
  induction hops with
  | nil => rfl
  | cons h t ih =>
    simp only [enrichHops, List.map_cons] at *
    rw [ih]
    congr 1
    exact enrichHop_proj geo asnSvc h

/-- Witness for the amended C3 at a one-hop list. -/
theorem claim_C3_witness :
    traceRouteFromHops geoStub asnStub
      [{ hop := 1, ip := none, rtt := none, loss := 100, timeout := true,
         isPrivate := false }]
      = .success (enrichHops geoStub asnStub
        [{ hop := 1, ip := none, rtt := none, loss := 100, timeout := true,
           isPrivate := false }]) :=
  (claim_C3_no_trimming geoStub asnStub _).2.2 (by decide)

/-! ### C5: the distance split -/

theorem calcDistLoop_sum_inv (dist : ℚ → ℚ → ℚ → ℚ → ℚ) (hops : List EHop) :
    ∀ T L S : ℚ, T = L + S →
      (calcDistLoop dist T L S hops).2.1
        = (calcDistLoop dist T L S hops).2.2.1 + (calcDistLoop dist T L S hops).2.2.2 := by
  induction hops with
  | nil => intro T L S h; exact h
  | cons h1 t ih =>
    intro T L S h
    cases t with
    | nil => exact h
    | cons h2 rest =>
      rw [calcDistLoop]
      split
      · refine ih _ _ _ ?_
        by_cases hsea : (h1.routeType == "sea") = true
        · rw [if_pos hsea, if_pos hsea, h]; ring
        · rw [if_neg hsea, if_neg hsea, h]; ring
      · exact ih _ _ _ h

theorem round_add_bound (L S : ℚ) :
    |round (L + S) - (round L + round S)| ≤ 1 := by
  have h1 := abs_sub_round (L + S)
  have h2 := abs_sub_round L
  have h3 := abs_sub_round S
  have hq : |((round (L + S) - (round L + round S) : ℤ) : ℚ)| ≤ 3 / 2 := by
    push_cast
    have he : ((round (L + S) : ℚ) - ((round L : ℚ) + (round S : ℚ)))
        = -((L + S) - (round (L + S) : ℚ)) + ((L - (round L : ℚ))
          + (S - (round S : ℚ))) := by ring
    rw [he]
    calc |(-((L + S) - (round (L + S) : ℚ)) + ((L - (round L : ℚ))
            + (S - (round S : ℚ))))|
        ≤ |(-((L + S) - (round (L + S) : ℚ)))| + |((L - (round L : ℚ))
            + (S - (round S : ℚ)))| := abs_add _ _
      _ ≤ |(-((L + S) - (round (L + S) : ℚ)))| + (|L - (round L : ℚ)|
            + |S - (round S : ℚ)|) := by
          exact add_le_add_left (abs_add _ _) _
      _ ≤ 1 / 2 + (1 / 2 + 1 / 2) := by
          rw [abs_neg]
          exact add_le_add (by exact h1) (add_le_add h2 h3)
      _ = 3 / 2 := by norm_num
  have hlt : |round (L + S) - (round L + round S)| < 2 := by
    by_contra hcon
    push_neg at hcon
    have hcast : ((2 : ℤ) : ℚ) ≤ |((round (L + S) - (round L + round S) : ℤ) : ℚ)| := by
      rw [← Int.cast_abs]
      exact_mod_cast hcon
    push_cast at hq hcast
    linarith
  rw [abs_le]
  rw [abs_lt] at hlt
  omega

/-- C5: the aggregator's `totalDistance` is the rounding of `L + S` where
`L` and `S` are the exact land and sea sums whose roundings are reported
as `landDistance` and `seaDistance` (each segment's distance enters
exactly one of the two and the overall total), so the three reported
figures agree up to the rounding applied to each, with discrepancy at
most 1 km. -/
theorem claim_C5_total_eq_land_plus_sea (dist : ℚ → ℚ → ℚ → ℚ → ℚ)
    (hops : List EHop) :
    ∃ L S : ℚ,
      (calculateDistances dist hops).total = roundQ (L + S) ∧
      (calculateDistances dist hops).land = roundQ L ∧
      (calculateDistances dist hops).sea = roundQ S ∧
      |(calculateDistances dist hops).total -
        ((calculateDistances dist hops).land + (calculateDistances dist hops).sea)| ≤ 1 := by
  refine ⟨(calcDistLoop dist 0 0 0 hops).2.2.1, (calcDistLoop dist 0 0 0 hops).2.2.2,
    ?_, rfl, rfl, ?_⟩
  · show roundQ (calcDistLoop dist 0 0 0 hops).2.1 = _
    rw [calcDistLoop_sum_inv dist hops 0 0 0 (by ring)]
  · show |roundQ (calcDistLoop dist 0 0 0 hops).2.1 -
      (roundQ (calcDistLoop dist 0 0 0 hops).2.2.1
        + roundQ (calcDistLoop dist 0 0 0 hops).2.2.2)| ≤ 1
    rw [calcDistLoop_sum_inv dist hops 0 0 0 (by ring)]
    exact round_add_bound _ _

/-! ### C7: the total time -/

theorem lastValidHop_eq_reverse_find (hops : List EHop) :
    lastValidHop hops = hops.reverse.find? isValidRtt := by
  induction hops with
  | nil => rfl
  | cons h t ih =>
    rw [lastValidHop, List.reverse_cons, List.find?_append, ih]
    cases t.reverse.find? isValidRtt <;>
      cases hv : isValidRtt h <;> simp [List.find?, hv]

/-- C7: the path's total time is the RTT of the last hop (scanning from
the end) that is not a timeout and has a strictly positive non-null RTT,
reported directly (to three decimals, not divided by 2, hence equal to
that RTT whenever the RTT has at most three decimals); if no such hop
exists the total time is 0 and no error is raised. -/
theorem claim_C7_total_time (hops : List EHop) :
    (calculateTotalTime hops =
      match hops.reverse.find? isValidRtt with
      | none => 0
      | some h => round3 (h.rtt.getD 0)) ∧
    ((∀ h ∈ hops, isValidRtt h = false) → calculateTotalTime hops = 0) ∧
    (∀ h q, hops.reverse.find? isValidRtt = some h → h.rtt = some q →
      (∃ n : ℤ, q * 1000 = (n : ℚ)) → calculateTotalTime hops = q) := by
  have hmain : calculateTotalTime hops =
      match hops.reverse.find? isValidRtt with
      | none => 0
      | some h => round3 (h.rtt.getD 0) := by
    unfold calculateTotalTime
    cases hops with
    | nil => rfl
    | cons h t =>
      rw [if_neg (by simp), lastValidHop_eq_reverse_find]
  refine ⟨hmain, ?_, ?_⟩
  · intro hall
    rw [hmain]
    have : hops.reverse.find? isValidRtt = none :=
      List.find?_eq_none.2 fun x hx => by
        simp [hall x (List.mem_reverse.1 hx)]
    rw [this]
  · intro h q hf hq hn
    rcases hn with ⟨n, hn⟩
    rw [hmain, hf]
    show round3 (h.rtt.getD 0) = q
    rw [hq]
    show round3 q = q
    unfold round3 roundQ
    rw [hn, round_intCast]
    rw [show ((n : ℚ) : ℚ) = q * 1000 from hn.symm]
    ring

/-- A concrete enriched hop carrying RTT `3/2` ms. -/
def c7Hop : EHop :=
  { hop := 1, ip := some "9.9.9.9", rtt := some (Rat.divInt 3 2), loss := 0,
    timeout := false, isPrivate := false, lat := none, lon := none,
    city := "", country := "", asn := "", asnOrg := "", isCdn := false,
    cdnProvider := none, routeType := "land", cableUsed := none,
    location := "", distanceToNext := none }

/-- Witness for C7: a single valid hop with RTT `3/2` ms yields exactly
`3/2` as the total time. -/
theorem claim_C7_witness : calculateTotalTime [c7Hop] = Rat.divInt 3 2 :=
  (claim_C7_total_time [c7Hop]).2.2 c7Hop (Rat.divInt 3 2) (by decide) rfl
    ⟨1500, by rw [Rat.divInt_eq_div]; norm_num⟩

/-! ### C6: cable uniqueness -/

theorem cableStep_inv (cfg : CableCfg) (st : List CableInfo × List String)
    (p : EHop × EHop)
    (h1 : (st.1.map CableInfo.id).Nodup) (h2 : ∀ c ∈ st.1, c.id ∈ st.2) :
    ((cableStep cfg st p).1.map CableInfo.id).Nodup ∧
    (∀ c ∈ (cableStep cfg st p).1, c.id ∈ (cableStep cfg st p).2) := by
  unfold cableStep
  split
  · exact ⟨h1, h2⟩
  · split
    · split
      · exact ⟨h1, h2⟩
      · next cable heq =>
        split
        · exact ⟨h1, h2⟩
        · next hnc =>
          have hnotin : cableIdOf cable ∉ st.2 := by
            intro hmem
            exact hnc (List.elem_iff.2 hmem)
          constructor
          · rw [List.map_append]
            simp only [List.map_cons, List.map_nil]
            rw [List.nodup_append]
            refine ⟨h1, List.nodup_singleton _, ?_⟩
            intro x hx hx2
            rcases List.mem_map.1 hx with ⟨c, hc, hcx⟩
            have hxid : x = (mkCableInfo cfg p.1 p.2 _ cable (cableNameOf cable)
                (cableIdOf cable)).id := List.mem_singleton.1 hx2
            have hid : (mkCableInfo cfg p.1 p.2
                (cfg.calcDist (p.1.lat.getD 0) (p.1.lon.getD 0) (p.2.lat.getD 0)
                  (p.2.lon.getD 0)) cable (cableNameOf cable)
                (cableIdOf cable)).id = cableIdOf cable := rfl
            rw [hxid, hid] at hcx
            exact hnotin (hcx ▸ h2 c hc)
          · intro c hc
            rcases List.mem_append.1 hc with hc1 | hc2
            · exact List.mem_append_left _ (h2 c hc1)
            · rw [List.mem_singleton.1 hc2]
              exact List.mem_append_right _ (List.mem_singleton_self _)
    · exact ⟨h1, h2⟩

theorem cableFold_inv (cfg : CableCfg) (pairs : List (EHop × EHop)) :
    ∀ st : List CableInfo × List String,
      (st.1.map CableInfo.id).Nodup → (∀ c ∈ st.1, c.id ∈ st.2) →
      (((pairs.foldl (cableStep cfg) st).1.map CableInfo.id).Nodup ∧
        ∀ c ∈ (pairs.foldl (cableStep cfg) st).1,
          c.id ∈ (pairs.foldl (cableStep cfg) st).2) := by
  induction pairs with
  | nil => exact fun st h1 h2 => ⟨h1, h2⟩
  | cons p rest ih =>
    intro st h1 h2
    have hstep := cableStep_inv cfg st p h1 h2
    exact ih _ hstep.1 hstep.2

/-- C6: a cable identifier appears at most once in the result of the
cable analysis — for every hop list, every cable dataset/matcher and every
metadata source — and once an identifier is in the used set, a later pair
matching the same cable leaves the recorded list untouched, so the first
matching pair determines the recorded entry. -/
theorem claim_C6_cable_ids_unique (cfg : CableCfg) (hops : List EHop) :
    ((analyzeCableUsage cfg hops).map CableInfo.id).Nodup ∧
    (∀ (st : List CableInfo × List String) (h1 h2 : EHop) (cable : Cable),
      cfg.findCable h1 h2 = some cable → cableIdOf cable ∈ st.2 →
      cableStep cfg st (h1, h2) = st) := by
  constructor
  · exact (cableFold_inv cfg (adjPairs hops) ([], []) (by simp) (by simp)).1
  · intro st h1 h2 cable hfind hmem
    unfold cableStep
    dsimp only
    split
    · rfl
    · split
      · rw [hfind]
        dsimp only
        rw [if_pos (List.elem_iff.2 hmem)]
      · rfl

/-- A concrete cable, matcher configuration and state for the witness. -/
def cable0 : Cable :=
  { props := { id := some "c1", cable_id := none, name := some "Cable One",
               clength := none, rfs := none, owners := none } }

def cfg0 : CableCfg :=
  { calcDist := fun _ _ _ _ => 1000,
    findCable := fun _ _ => some cable0,
    getMeta := fun _ => none }

def eHopA : EHop :=
  { hop := 1, ip := some "1.1.1.1", rtt := some 1, loss := 0,
    timeout := false, isPrivate := false, lat := some 10, lon := some 10,
    city := "A", country := "X", asn := "", asnOrg := "", isCdn := false,
    cdnProvider := none, routeType := "land", cableUsed := none,
    location := "", distanceToNext := none }

def eHopB : EHop :=
  { hop := 2, ip := some "2.2.2.2", rtt := some 2, loss := 0,
    timeout := false, isPrivate := false, lat := some 20, lon := some 20,
    city := "B", country := "Y", asn := "", asnOrg := "", isCdn := false,
    cdnProvider := none, routeType := "land", cableUsed := none,
    location := "", distanceToNext := none }

/-- Witness for C6: with the identifier already recorded, the step leaves
the state unchanged. -/
theorem claim_C6_witness :
    cableStep cfg0 ([], ["c1"]) (eHopA, eHopB) = ([], ["c1"]) :=
  (claim_C6_cable_ids_unique cfg0 []).2 ([], ["c1"]) eHopA eHopB cable0 rfl
    (by decide)

/-! ### C9: same-country short pairs -/

/-- C9: two adjacent geolocated hops in the same country 200 km apart
never produce a CableSegment — the pair fails both submarine-route
criteria (`d > 800 ∧ different countries` and `sea ∧ d > 500`) regardless
of which cables exist or how close they pass, for every matcher and every
state of the loop. -/
theorem claim_C9_same_country_200km (cfg : CableCfg) (h1 h2 : EHop)
    (hc : h1.country = h2.country)
    (hd : cfg.calcDist (h1.lat.getD 0) (h1.lon.getD 0)
      (h2.lat.getD 0) (h2.lon.getD 0) = 200) :
    (∀ st : List CableInfo × List String, cableStep cfg st (h1, h2) = st) ∧
    analyzeCableUsage cfg [h1, h2] = [] := by
  have hstep : ∀ st : List CableInfo × List String, cableStep cfg st (h1, h2) = st := by
    intro st
    unfold cableStep
    dsimp only
    split
    · rfl
    · rw [if_neg]
      rw [hd]
      push_neg
      refine ⟨fun hgt => absurd hgt (by norm_num), fun _ => by norm_num⟩
  refine ⟨hstep, ?_⟩
  unfold analyzeCableUsage adjPairs
  simp only [List.tail_cons, List.zip_cons_cons, List.zip_nil_right, List.foldl_cons,
    List.foldl_nil]
  rw [hstep]

def cfg9 : CableCfg :=
  { calcDist := fun _ _ _ _ => 200,
    findCable := fun _ _ => some cable0,
    getMeta := fun _ => none }

def eHopC : EHop :=
  { hop := 3, ip := some "3.3.3.3", rtt := some 3, loss := 0,
    timeout := false, isPrivate := false, lat := some 30, lon := some 30,
    city := "C", country := "X", asn := "", asnOrg := "", isCdn := false,
    cdnProvider := none, routeType := "sea", cableUsed := none,
    location := "", distanceToNext := none }

/-- Witness for C9 at two concrete same-country hops 200 km apart, with a
matcher that would otherwise always return a cable. -/
theorem claim_C9_witness : analyzeCableUsage cfg9 [eHopA, eHopC] = [] :=
  (claim_C9_same_country_200km cfg9 eHopA eHopC rfl rfl).2

/-! ### C10: zero/null latitudes are skipped by both loops -/

/-- The distance one adjacent pair contributes to the aggregator's
overall total. -/
def pairContrib (dist : ℚ → ℚ → ℚ → ℚ → ℚ) : EHop × EHop → ℚ
  | (h1, h2) =>
    if latTruthy h1.lat && latTruthy h2.lat then
      dist (h1.lat.getD 0) (h1.lon.getD 0) (h2.lat.getD 0) (h2.lon.getD 0)
    else 0

/-- The contribution to the land total (a leading hop whose route type is
not `sea` routes the distance to land). -/
def pairContribLand (dist : ℚ → ℚ → ℚ → ℚ → ℚ) : EHop × EHop → ℚ
  | (h1, h2) =>
    if latTruthy h1.lat && latTruthy h2.lat then
      if h1.routeType == "sea" then 0
      else dist (h1.lat.getD 0) (h1.lon.getD 0) (h2.lat.getD 0) (h2.lon.getD 0)
    else 0

/-- The contribution to the sea total. -/
def pairContribSea (dist : ℚ → ℚ → ℚ → ℚ → ℚ) : EHop × EHop → ℚ
  | (h1, h2) =>
    if latTruthy h1.lat && latTruthy h2.lat then
      if h1.routeType == "sea" then
        dist (h1.lat.getD 0) (h1.lon.getD 0) (h2.lat.getD 0) (h2.lon.getD 0)
      else 0
    else 0

theorem calcDistLoop_snd (dist : ℚ → ℚ → ℚ → ℚ → ℚ) (T L S : ℚ)
    (h1 h2 : EHop) (rest : List EHop) :
    (calcDistLoop dist T L S (h1 :: h2 :: rest)).2
      = if latTruthy h1.lat && latTruthy h2.lat then
          (calcDistLoop dist
            (T + dist (h1.lat.getD 0) (h1.lon.getD 0) (h2.lat.getD 0) (h2.lon.getD 0))
            (if h1.routeType == "sea" then L
              else L + dist (h1.lat.getD 0) (h1.lon.getD 0) (h2.lat.getD 0) (h2.lon.getD 0))
            (if h1.routeType == "sea" then
              S + dist (h1.lat.getD 0) (h1.lon.getD 0) (h2.lat.getD 0) (h2.lon.getD 0)
              else S) (h2 :: rest)).2
        else (calcDistLoop dist T L S (h2 :: rest)).2 := by
  rw [calcDistLoop]
  split
  · rfl
  · rfl

theorem calcDistLoop_decomp (dist : ℚ → ℚ → ℚ → ℚ → ℚ) (hops : List EHop) :
    ∀ T L S : ℚ,
      (calcDistLoop dist T L S hops).2.1
        = T + ((adjPairs hops).map (pairContrib dist)).sum ∧
      (calcDistLoop dist T L S hops).2.2.1
        = L + ((adjPairs hops).map (pairContribLand dist)).sum ∧
      (calcDistLoop dist T L S hops).2.2.2
        = S + ((adjPairs hops).map (pairContribSea dist)).sum := by
  induction hops with
  | nil =>
    intro T L S
    refine ⟨by simp [adjPairs, calcDistLoop], by simp [adjPairs, calcDistLoop],
      by simp [adjPairs, calcDistLoop]⟩
  | cons h1 t ih =>
    intro T L S
    cases t with
    | nil =>
      refine ⟨by simp [adjPairs, calcDistLoop], by simp [adjPairs, calcDistLoop],
        by simp [adjPairs, calcDistLoop]⟩
    | cons h2 rest =>
      have hadj : adjPairs (h1 :: h2 :: rest) = (h1, h2) :: adjPairs (h2 :: rest) := by
        simp [adjPairs]
      have h2nd := calcDistLoop_snd dist T L S h1 h2 rest
      rw [hadj]
      simp only [List.map_cons, List.sum_cons]
      by_cases hg : (latTruthy h1.lat && latTruthy h2.lat) = true
      · rw [if_pos hg] at h2nd
        rcases ih
            (T + dist (h1.lat.getD 0) (h1.lon.getD 0) (h2.lat.getD 0) (h2.lon.getD 0))
            (if h1.routeType == "sea" then L
              else L + dist (h1.lat.getD 0) (h1.lon.getD 0) (h2.lat.getD 0) (h2.lon.getD 0))
            (if h1.routeType == "sea" then
              S + dist (h1.lat.getD 0) (h1.lon.getD 0) (h2.lat.getD 0) (h2.lon.getD 0)
              else S) with ⟨i1, i2, i3⟩
        refine ⟨?_, ?_, ?_⟩
        · rw [congrArg Prod.fst h2nd, i1]
          dsimp only [pairContrib]
          rw [if_pos hg]
          ring
        · rw [congrArg (fun x => x.2.1) h2nd, i2]
          dsimp only [pairContribLand]
          rw [if_pos hg]
          by_cases hsea : (h1.routeType == "sea") = true
          · rw [if_pos hsea, if_pos hsea]
            ring
          · rw [if_neg hsea, if_neg hsea]
            ring
        · rw [congrArg (fun x => x.2.2) h2nd, i3]
          dsimp only [pairContribSea]
          rw [if_pos hg]
          by_cases hsea : (h1.routeType == "sea") = true
          · rw [if_pos hsea, if_pos hsea]
            ring
          · rw [if_neg hsea, if_neg hsea]
            ring
      · rw [if_neg hg] at h2nd
        rcases ih T L S with ⟨i1, i2, i3⟩
        refine ⟨?_, ?_, ?_⟩
        · rw [congrArg Prod.fst h2nd, i1]
          dsimp only [pairContrib]
          rw [if_neg hg]
          ring
        · rw [congrArg (fun x => x.2.1) h2nd, i2]
          dsimp only [pairContribLand]
          rw [if_neg hg]
          ring
        · rw [congrArg (fun x => x.2.2) h2nd, i3]
          dsimp only [pairContribSea]
          rw [if_neg hg]
          ring

/-- C10: an adjacent pair in which either hop's latitude is exactly `0`
or missing is skipped by both loops: its contributions to the total, land
and sea sums are `0` (with the sums decomposing pairwise for every hop
list), the leading hop heads the output list unmodified — its
`distanceToNext` untouched by that pair — the cable loop's state is
unchanged, and both guards consult only the latitude, never the
longitude. -/
theorem claim_C10_degenerate_lat_skipped (dist : ℚ → ℚ → ℚ → ℚ → ℚ)
    (cfg : CableCfg) (h1 h2 : EHop)
    (hdeg : h1.lat = none ∨ h1.lat = some 0 ∨ h2.lat = none ∨ h2.lat = some 0) :
    pairContrib dist (h1, h2) = 0 ∧
    pairContribLand dist (h1, h2) = 0 ∧
    pairContribSea dist (h1, h2) = 0 ∧
    (∀ (hops : List EHop) (T L S : ℚ),
      (calcDistLoop dist T L S hops).2.1
        = T + ((adjPairs hops).map (pairContrib dist)).sum ∧
      (calcDistLoop dist T L S hops).2.2.1
        = L + ((adjPairs hops).map (pairContribLand dist)).sum ∧
      (calcDistLoop dist T L S hops).2.2.2
        = S + ((adjPairs hops).map (pairContribSea dist)).sum) ∧
    (∀ (T L S : ℚ) (rest : List EHop),
      (calcDistLoop dist T L S (h1 :: h2 :: rest)).1.head? = some h1) ∧
    (∀ st : List CableInfo × List String, cableStep cfg st (h1, h2) = st) ∧
    (∀ g1 g2 : EHop, g1.lat = h1.lat → g2.lat = h2.lat →
      (latTruthy g1.lat && latTruthy g2.lat)
        = (latTruthy h1.lat && latTruthy h2.lat)) := by
  have hg : (latTruthy h1.lat && latTruthy h2.lat) = false := by
    rcases hdeg with h | h | h | h <;> rw [h] <;> simp [latTruthy]
  refine ⟨?_, ?_, ?_, calcDistLoop_decomp dist, ?_, ?_, ?_⟩
  · dsimp only [pairContrib]; rw [if_neg (by simp [hg])]
  · dsimp only [pairContribLand]; rw [if_neg (by simp [hg])]
  · dsimp only [pairContribSea]; rw [if_neg (by simp [hg])]
  · intro T L S rest
    rw [calcDistLoop, if_neg (by simp [hg])]
    rfl
  · intro st
    have hor : (!latTruthy h1.lat || !latTruthy h2.lat) = true := by
      cases hb : latTruthy h1.lat <;> simp_all
    unfold cableStep
    dsimp only
    rw [if_pos hor]
  · intro g1 g2 hg1 hg2
    rw [hg1, hg2]

def dist10 : ℚ → ℚ → ℚ → ℚ → ℚ := fun _ _ _ _ => 5000

/-- A hop sitting exactly on the equator (latitude `0`). -/
def eHopZ : EHop :=
  { hop := 4, ip := some "4.4.4.4", rtt := some 4, loss := 0,
    timeout := false, isPrivate := false, lat := some 0, lon := some 40,
    city := "Z", country := "W", asn := "", asnOrg := "", isCdn := false,
    cdnProvider := none, routeType := "land", cableUsed := none,
    location := "", distanceToNext := none }

/-- Witness for C10: the equator hop's pair contributes nothing and the
cable step ignores it. -/
theorem claim_C10_witness :
    pairContrib dist10 (eHopZ, eHopB) = 0 ∧
    cableStep cfg0 ([], []) (eHopZ, eHopB) = ([], []) :=
  ⟨(claim_C10_degenerate_lat_skipped dist10 cfg0 eHopZ eHopB
      (Or.inr (Or.inl rfl))).1,
    (claim_C10_degenerate_lat_skipped dist10 cfg0 eHopZ eHopB
      (Or.inr (Or.inl rfl))).2.2.2.2.2.1 ([], [])⟩

/-! ### C8: partial-output recovery in the orchestrator -/

/-- Valid mtr report text that parses to one hop. -/
def mtrPartialText : String := " 1. 9.9.9.9 0.0% 3 1.0 1.0 1.0 1.0"

/-- Valid tcptraceroute text that parses to one hop. -/
def tcpPartialText : String := "1 9.9.9.9 1.0 ms"

/-- C8 counterexample: mtr fails carrying parseable partial stdout,
traceroute fails with none, tcptraceroute fails carrying parseable
partial stdout — yet the orchestrator returns `[]`: the mtr and
tcptraceroute partial outputs are never parsed before giving up. -/
theorem claim_C8_counterexample :
    runTracerouteUnix (.err (some mtrPartialText)) (.err none) (.ok "")
      (.err (some tcpPartialText)) = [] ∧
    parseMtrOutput mtrPartialText ≠ [] ∧
    parseTcptracerouteOutput tcpPartialText ≠ [] := by
  refine ⟨rfl, ?_, ?_⟩
  · intro hcon
    have : (parseMtrOutput mtrPartialText).length = 1 := by decide
    rw [hcon] at this
    cases this
  · intro hcon
    have : (parseTcptracerouteOutput tcpPartialText).length = 1 := by decide
    rw [hcon] at this
    cases this

/-- C8 amended: only the traceroute attempt's partial stdout is parsed on
failure and returned when it recovers hops; mtr and tcptraceroute
failures discard their partial output.  When nothing is recovered the
orchestrator returns the empty list rather than throwing, and the caller
turns an empty hop list into the structured `no hops returned` error. -/
theorem claim_C8_partial_recovery :
    (∀ (s : String) (mp : Option String) (retryA tcpA : ExecAttempt),
      parseTracerouteOutput s ≠ [] →
      runTracerouteUnix (.err mp) (.err (some s)) retryA tcpA
        = parseTracerouteOutput s) ∧
    (∀ (mp tp : Option String) (retryA : ExecAttempt),
      runTracerouteUnix (.err mp) (.err none) retryA (.err tp) = []) ∧
    (∀ (geo : String → GeoResult) (asnSvc : String → AsnResult),
      traceRouteFromHops geo asnSvc []
        = .failure "Traceroute failed - no hops returned") := by
  refine ⟨?_, ?_, ?_⟩
  · intro s mp retryA tcpA hne
    show trCatch (some s) tcpA = parseTracerouteOutput s
    unfold trCatch
    rw [if_pos]
    exact List.length_pos.2 hne
  · intro mp tp retryA
    rfl
  · intro geo asnSvc
    rfl

/-- Witness for the amended C8: a failed traceroute attempt whose partial
stdout holds one valid hop line is recovered. -/
theorem claim_C8_witness :
    runTracerouteUnix (.err none) (.err (some "1  8.8.8.8  2.0 ms")) (.ok "")
      (.err none) = parseTracerouteOutput "1  8.8.8.8  2.0 ms" :=
  claim_C8_partial_recovery.1 "1  8.8.8.8  2.0 ms" none (.ok "") (.err none)
    (by
      intro hcon
      have : (parseTracerouteOutput "1  8.8.8.8  2.0 ms").length = 1 := by decide
      rw [hcon] at this
      cases this)

end TraceMap
